import Mathlib

/-!
Shallow embedding of the extraction-and-fallback pipeline of the
ProductPriceTrackerOrg/data-science repository
(src/scrape_data.py, class PriceHistoryScraper, and
src/price_before.py, class EnhancedPriceHistoryScraper).

Decoded JSON values are modelled by the inductive `JValue`; Python dicts
become ordered association lists (Python dicts preserve insertion order,
which these functions iterate over), Python None becomes `JValue.null`,
numbers are modelled by `Int` (the price values handled by the claims are
integers).  External effects (HTTP, Selenium, regular-expression search,
random number generation) are passed in as explicit parameters where the
control flow around them is what the source defines.
-/

/-- A decoded JSON value, as handled by the Python code after `json.loads`
or a Selenium `execute_script` round-trip. -/
inductive JValue where
  | null : JValue
  | bool (b : Bool) : JValue
  | num (n : Int) : JValue
  | str (s : String) : JValue
  | arr (items : List JValue) : JValue
  | obj (kvs : List (String × JValue)) : JValue

/-- Python truthiness (`if not data: ...`) for a decoded value. -/
def truthy : JValue → Bool
  | .null => false
  | .bool b => b
  | .num n => n != 0
  | .str s => !s.isEmpty
  | .arr items => !items.isEmpty
  | .obj kvs => !kvs.isEmpty

/-- Python `key in dict` on an ordered association list. -/
def hasKey (kvs : List (String × JValue)) (k : String) : Bool :=
  kvs.any (fun kv => kv.fst == k)

/-- Python `dict[key]`: the value of the first binding of `k`
(Python dicts hold each key once, so the first binding is the binding). -/
def getKey (kvs : List (String × JValue)) (k : String) : JValue :=
  match kvs.find? (fun kv => kv.fst == k) with
  | some kv => kv.snd
  | none => .null

/-- The price-key set of `PriceHistoryScraper.validate_price_data`
(src/scrape_data.py line 233). -/
def price_keys : List String := ["price", "value", "y", "amount"]

/-- The date-key set of `PriceHistoryScraper.validate_price_data`
(src/scrape_data.py line 234). -/
def date_keys : List String := ["date", "time", "x", "timestamp"]

/-- `PriceHistoryScraper.validate_price_data` (src/scrape_data.py
lines 216-241), translated clause by clause: the initial truthiness
bail-out, the three key-pair checks on a mapping, and the first-element
check on a non-empty sequence.  Key membership here is exact
(case-sensitive), unlike the lowercasing in `format_price_data`. -/
def validate_price_data (data : JValue) : Bool :=
  if !truthy data then false
  else
    match data with
    | .obj kvs =>
        if hasKey kvs "labels" && hasKey kvs "data" then true
        else if hasKey kvs "dates" && hasKey kvs "prices" then true
        else if hasKey kvs "x" && hasKey kvs "y" then true
        else false
    | .arr items =>
        match items with
        | [] => false
        | first_item :: _ =>
            match first_item with
            | .obj kvs =>
                (price_keys.any (fun k => hasKey kvs k)) &&
                (date_keys.any (fun k => hasKey kvs k))
            | _ => false
    | _ => false

/-- `JValue.null` test, used to model Python `x is not None`. -/
def JValue.isNull : JValue → Bool
  | .null => true
  | _ => false

/-- ASCII lowercasing of one character, as Python `str.lower` acts on the
ASCII range (the keys compared by this code are ASCII). -/
def lowerChar (c : Char) : Char :=
  if c.isUpper then Char.ofNat (c.toNat + 32) else c

/-- Python `s.lower()` restricted to the ASCII range. -/
def pyLower (s : String) : String := String.mk (s.data.map lowerChar)

/-- The key-scanning loop of `format_price_data`'s list branch
(src/scrape_data.py lines 258-265): iterate over the record's key-value
pairs in order; a key whose lowercase form is in the date-key set
overwrites `date_val`, else one in the price-key set overwrites
`price_val`.  Unset is Python `None`, i.e. `JValue.null` (assigning a
JSON `null` value is indistinguishable from never assigning). -/
def scan_item (kvs : List (String × JValue)) : JValue × JValue :=
  kvs.foldl
    (fun acc kv =>
      if date_keys.contains (pyLower kv.fst) then (kv.snd, acc.snd)
      else if price_keys.contains (pyLower kv.fst) then (acc.fst, kv.snd)
      else acc)
    (.null, .null)

/-- The per-item accumulation of `format_price_data`'s list branch
(src/scrape_data.py lines 255-269): mappings contribute a
(date, price) pair when the scan left both values non-None; other items
and mappings missing either value are skipped. -/
def format_items : List JValue → List (JValue × JValue)
  | [] => []
  | .obj kvs :: rest =>
      let dp := scan_item kvs
      if !dp.fst.isNull && !dp.snd.isNull then dp :: format_items rest
      else format_items rest
  | _ :: rest => format_items rest

/-- `PriceHistoryScraper.format_price_data` (src/scrape_data.py
lines 243-271).  A labels/data mapping is returned unchanged; a
dates/prices mapping is renamed; a sequence is scanned item by item; every
other value yields the empty series. -/
def format_price_data (data : JValue) : JValue :=
  match data with
  | .obj kvs =>
      if hasKey kvs "labels" && hasKey kvs "data" then .obj kvs
      else if hasKey kvs "dates" && hasKey kvs "prices" then
        .obj [("labels", getKey kvs "dates"), ("data", getKey kvs "prices")]
      else .obj [("labels", .arr []), ("data", .arr [])]
  | .arr items =>
      let pts := format_items items
      .obj [("labels", .arr (pts.map Prod.fst)), ("data", .arr (pts.map Prod.snd))]
  | _ => .obj [("labels", .arr []), ("data", .arr [])]

/-- Array test on a decoded value. -/
def JValue.isArr : JValue → Bool
  | .arr _ => true
  | _ => false

/-- Written from the words of the specification's §4.1 rules as claim C1
states them, for comparison with `validate_price_data`: rule 1 (mapping
with a "labels" key and an array-valued "data" key), rule 2 (mapping with
"dates" and "prices" keys), rule 3 (mapping with "x" and "y" keys),
rule 4 (non-empty sequence whose first element is a mapping holding at
least one price key and at least one date key), first match wins,
otherwise invalid. -/
def rules_valid_strict (v : JValue) : Bool :=
  match v with
  | .obj kvs =>
      if hasKey kvs "labels" && hasKey kvs "data" && (getKey kvs "data").isArr then true
      else if hasKey kvs "dates" && hasKey kvs "prices" then true
      else if hasKey kvs "x" && hasKey kvs "y" then true
      else false
  | .arr items =>
      match items with
      | [] => false
      | first_item :: _ =>
          match first_item with
          | .obj kvs =>
              (price_keys.any (fun k => hasKey kvs k)) &&
              (date_keys.any (fun k => hasKey kvs k))
          | _ => false
  | _ => false

/-- The amended form of claim C1's rule set: identical to
`rules_valid_strict` except that rule 1 requires only the presence of the
"labels" and "data" keys, with no constraint on the value under "data"
(the source checks key membership only). -/
def rules_valid (v : JValue) : Bool :=
  match v with
  | .obj kvs =>
      if hasKey kvs "labels" && hasKey kvs "data" then true
      else if hasKey kvs "dates" && hasKey kvs "prices" then true
      else if hasKey kvs "x" && hasKey kvs "y" then true
      else false
  | .arr items =>
      match items with
      | [] => false
      | first_item :: _ =>
          match first_item with
          | .obj kvs =>
              (price_keys.any (fun k => hasKey kvs k)) &&
              (date_keys.any (fun k => hasKey kvs k))
          | _ => false
  | _ => false

/-- The pairing loop of `EnhancedPriceHistoryScraper.extract_chart_data_advanced`
(src/price_before.py lines 262-267): `for i in range(len(labels)): if
i < len(prices): price_data.append(...)` — one (date, price) pair per
index that is in range of both arrays. -/
def chart_pairs (labels prices : List JValue) : List (JValue × JValue) :=
  (List.range labels.length).filterMap (fun i =>
    match labels.get? i, prices.get? i with
    | some l, some p => some (l, p)
    | _, _ => none)

/-- The row zip of `PriceHistoryScraper.save_to_csv` (src/scrape_data.py
line 312): `for date, price in zip(data['labels'], data['data'])`.  A
series whose labels or data entry is absent or not an array yields no
rows (the source bails out before the zip in that case). -/
def save_to_csv_rows (series : JValue) : List (JValue × JValue) :=
  match series with
  | .obj kvs =>
      match getKey kvs "labels", getKey kvs "data" with
      | .arr ls, .arr ds => ls.zip ds
      | _, _ => []
  | _ => []

example : validate_price_data (.obj [("labels", .arr []), ("data", .arr [])]) = true := by rfl
example : validate_price_data (.obj []) = false := by rfl
example : validate_price_data (.arr [.num 3]) = false := by rfl
example :
    format_price_data (.arr [.obj [("time", .str "t1"), ("value", .num 10)], .obj [("x", .str "t2")]]) =
      .obj [("labels", .arr [.str "t1"]), ("data", .arr [.num 10])] := by rfl

/-!
## Calendar arithmetic

Python `datetime` values stepped with `timedelta(days=n)` are modelled by
their day numbers in the proleptic Gregorian calendar.  `days_from_civil`
counts days from the era origin 0000-03-01 (the standard civil-calendar
day-count algorithm); differences of these counts are exact day
differences, which is all `datetime` subtraction and `timedelta` addition
use.  `civil_from_days` is its inverse, used to render
`strftime('%Y-%m-%d')`.
-/

/-- Day number of the Gregorian date y-m-d, counted from 0000-03-01. -/
def days_from_civil (y m d : Nat) : Nat :=
  let y' := if m ≤ 2 then y - 1 else y
  let era := y' / 400
  let yoe := y' % 400
  let mp := (m + 9) % 12
  let doy := (153 * mp + 2) / 5 + d - 1
  let doe := yoe * 365 + yoe / 4 - yoe / 100 + doy
  era * 146097 + doe

/-- Gregorian date (y, m, d) of a day number, inverse of `days_from_civil`. -/
def civil_from_days (z : Nat) : Nat × Nat × Nat :=
  let era := z / 146097
  let doe := z % 146097
  let yoe := (doe - doe / 1460 + doe / 36524 - doe / 146096) / 365
  let y := yoe + era * 400
  let doy := doe - (365 * yoe + yoe / 4 - yoe / 100)
  let mp := (5 * doy + 2) / 153
  let d := doy - (153 * mp + 2) / 5 + 1
  let m := if mp < 10 then mp + 3 else mp - 9
  (if m ≤ 2 then y + 1 else y, m, d)

/-- Zero-padding to two digits, as in `strftime`'s `%m` and `%d`. -/
def pad2 (n : Nat) : String :=
  if n < 10 then "0" ++ toString n else toString n

/-- `current_date.strftime('%Y-%m-%d')` on a day number. -/
def fmt_date (z : Nat) : String :=
  let ymd := civil_from_days z
  toString ymd.fst ++ "-" ++ pad2 ymd.snd.fst ++ "-" ++ pad2 ymd.snd.snd

/-- `datetime(2022, 11, 1)`, the start date of both sample generators
(src/scrape_data.py line 277, src/price_before.py line 326). -/
def sample_start : Nat := days_from_civil 2022 11 1

/-- `datetime(2025, 8, 2)`, the end date of both sample generators
(src/scrape_data.py line 278, src/price_before.py line 327). -/
def sample_end : Nat := days_from_civil 2025 8 2

example : sample_end - sample_start = 1005 := by rfl

/-- The date loop of `PriceHistoryScraper.generate_sample_data`
(src/scrape_data.py lines 284-297): `while current_date <= end_date`,
stepping by `timedelta(days=7)`. -/
def weekly_dates (endD cur : Nat) : List Nat :=
  if cur ≤ endD then cur :: weekly_dates endD (cur + 7) else []
termination_by endD + 1 - cur
decreasing_by omega

/-- `PriceHistoryScraper.generate_sample_data` (src/scrape_data.py
lines 273-299).  Dates are the weekly day numbers rendered with
`strftime('%Y-%m-%d')`.  The price appended for each date is
`int(base_price * seasonal_factor * trend_factor * random_factor)`; every
factor is a function of `current_date` alone (the seasonal and trend
factors of `days_since_start`, the random factor of
`hash(str(current_date))`), so the whole float computation is abstracted
as an explicit parameter `price_of` from the day number, which the claims
about this generator quantify over. -/
def generate_sample_data (price_of : Nat → Int) : JValue :=
  .obj [("labels", .arr ((weekly_dates sample_end sample_start).map
            (fun z => .str (fmt_date z)))),
        ("data", .arr ((weekly_dates sample_end sample_start).map
            (fun z => .num (price_of z))))]

/-- The date loop of `EnhancedPriceHistoryScraper.generate_sample_price_data`
(src/price_before.py lines 330-345): `while current_date <= end_date`,
appending a point with price `max(100, price)` and stepping by
`timedelta(days=random.randint(1, 7))`.  The pseudo-random draws are
abstracted as explicit parameters indexed by the iteration counter `k`:
`rand k % 7 + 1` models `random.randint(1, 7)` (any value in 1..7), and
`price_of k` models the float price computation
`int(base_price * seasonal_factor * trend_factor * random_factor)`. -/
def synth_points (rand : Nat → Nat) (price_of : Nat → Int) (cur k : Nat) :
    List (Nat × Int) :=
  if cur ≤ sample_end then
    (cur, max 100 (price_of k)) :: synth_points rand price_of (cur + (rand k % 7 + 1)) (k + 1)
  else []
termination_by sample_end + 1 - cur
decreasing_by omega

/-- `EnhancedPriceHistoryScraper.generate_sample_price_data`
(src/price_before.py lines 323-347).  Each appended Python dict with
keys 'date' and 'price' is modelled as the (date, price) pair of its two
values, the date rendered with `strftime('%Y-%m-%d')`. -/
def generate_sample_price_data (rand : Nat → Nat) (price_of : Nat → Int) :
    List (JValue × JValue) :=
  (synth_points rand price_of sample_start 0).map
    (fun dp => (.str (fmt_date dp.fst), .num dp.snd))

/-!
## Product title and brand
-/

/-- ASCII word-character test, modelling `\w` of the brand-cleaning
regular expression for the character set these titles use (letters,
digits, underscore; the punctuation the claims exercise is non-word in
both readings). -/
def isWordChar (c : Char) : Bool := c.isAlphanum || c == '_'

/-- Python `s.strip()`: drop leading and trailing whitespace. -/
def pyStrip (s : String) : String :=
  String.mk (((s.data.dropWhile Char.isWhitespace).reverse.dropWhile
    Char.isWhitespace).reverse)

/-- Helper of `pySplit`: consume characters, flushing the current run at
whitespace. -/
def pySplitAux : List Char → List Char → List String
  | [], cur => if cur.isEmpty then [] else [String.mk cur.reverse]
  | c :: cs, cur =>
      if c.isWhitespace then
        if cur.isEmpty then pySplitAux cs []
        else String.mk cur.reverse :: pySplitAux cs []
      else pySplitAux cs (c :: cur)

/-- Python `s.split()` with no argument: split on whitespace runs,
dropping empty fields. -/
def pySplit (s : String) : List String := pySplitAux s.data []

/-- `re.sub(r'[^\w\s-]', '', brand).strip()` (src/price_before.py
line 145): delete every character that is not a word character,
whitespace or a hyphen, then strip. -/
def clean_brand (w : String) : String :=
  pyStrip (String.mk (w.data.filter
    (fun c => isWordChar c || c.isWhitespace || c == '-')))

/-- The title/brand assembly of
`EnhancedPriceHistoryScraper.extract_product_info` (src/price_before.py
lines 110-150), taking as input the title string the selector cascade or
the og:title meta tag produced (`none` when neither matched; the
BeautifulSoup traversal itself is an external collaborator).  The brand
is the title's first whitespace-separated token cleaned by `clean_brand`;
`title or 'Unknown Product'` and `brand or 'Unknown Brand'` replace a
missing or empty value by the placeholder. -/
def extract_product_info (title : Option String) : String × String :=
  let titleTruthy : Option String :=
    match title with
    | none => none
    | some s => if s.isEmpty then none else some s
  match titleTruthy with
  | none => ("Unknown Product", "Unknown Brand")
  | some t =>
      let brand : Option String :=
        match pySplit t with
        | [] => none
        | w :: _ =>
            let b := clean_brand w
            if b.isEmpty then none else some b
      (t, brand.getD "Unknown Brand")

/-!
## The per-URL pipeline of price_before.py
-/

/-- The record assembled per URL by
`EnhancedPriceHistoryScraper.extract_chart_data_advanced`. -/
structure ProductData where
  title : String
  brand : String
  price_data : List (JValue × JValue)

/-- The brand update of the Selenium branch (src/price_before.py
lines 193-195): `words = title.split(); if words: brand =
re.sub(...).strip()` — unlike `extract_product_info`, no placeholder is
substituted here when the cleaned word is empty. -/
def selenium_brand (t : String) (old : String) : String :=
  match pySplit t with
  | [] => old
  | w :: _ => clean_brand w

/-- `EnhancedPriceHistoryScraper.extract_chart_data_advanced`
(src/price_before.py lines 152-280), with the two effectful probes passed
in as their observed outcomes:

* `m1` is the requests attempt (lines 161-176): `none` when the GET
  raised or returned a status other than 200, otherwise the
  `extract_product_info` result on the fetched page together with the
  `extract_price_from_html` result.
* `m2` is the Selenium attempt (lines 179-273): `none` when no driver is
  available or the attempt raised before producing anything, otherwise
  the h1 title (when found) and the chart data `execute_script` returned
  (`none` for null; the script only ever builds an object with `labels`
  and `data` arrays).
* `rand` and `price_of` feed the synthetic fallback, as in
  `generate_sample_price_data`.

Method 1 returns early when its price list is truthy (non-empty); the
Selenium branch stores its pairing only when both arrays are truthy; the
synthetic fallback fires exactly when `price_data` is still empty
(lines 275-280). -/
def extract_chart_data_advanced
    (m1 : Option ((String × String) × List (JValue × JValue)))
    (m2 : Option (Option String × Option (List JValue × List JValue)))
    (rand : Nat → Nat) (price_of : Nat → Int) : ProductData :=
  let pd0 : ProductData := ⟨"Unknown Product", "Unknown Brand", []⟩
  let step1 : ProductData × Bool :=
    match m1 with
    | none => (pd0, false)
    | some (info, prices) =>
        let pd1 : ProductData := ⟨info.fst, info.snd, pd0.price_data⟩
        if !prices.isEmpty then ({ pd1 with price_data := prices }, true)
        else (pd1, false)
  if step1.snd then step1.fst
  else
    let pd := step1.fst
    let pd2 : ProductData :=
      match m2 with
      | none => pd
      | some (titleOpt, chartOpt) =>
          let pdT : ProductData :=
            match titleOpt with
            | some t => { pd with title := t, brand := selenium_brand t pd.brand }
            | none => pd
          match chartOpt with
          | some chart =>
              if !chart.fst.isEmpty && !chart.snd.isEmpty then
                { pdT with price_data := chart_pairs chart.fst chart.snd }
              else pdT
          | none => pdT
    if pd2.price_data.isEmpty then
      { pd2 with price_data := generate_sample_price_data rand price_of }
    else pd2

/-!
## Page-source extraction of scrape_data.py

`PriceHistoryScraper.extract_from_page_source` (src/scrape_data.py
lines 165-214) is modelled around its two effectful inputs: the matched
substrings each regular-expression pattern produced over the page's
script blocks (one list of strings per pattern, in pattern order), and
`json.loads` as a partial decode function (`none` for a raised
`ValueError`).  The claims about this extractor quantify over both.
-/

/-- The inner `for match in matches` loop wrapped in a single
`try`/`except` (src/scrape_data.py lines 195-202): decode each match; a
decoded value that validates is formatted and returned; a validated
failure moves to the next match; a decode error is caught by the
`except` around the whole loop, which `continue`s to the next pattern —
so it ends the scan of this pattern's remaining matches. -/
def try_matches (decode : String → Option JValue) :
    List String → Option JValue
  | [] => none
  | m :: rest =>
      match decode m with
      | none => none
      | some data =>
          if validate_price_data data then some (format_price_data data)
          else try_matches decode rest

/-- The outer pattern loop of `extract_from_page_source`
(src/scrape_data.py lines 191-202): patterns are tried in order, and the
first pattern whose match loop returns a formatted result short-circuits
the rest.  The result is `none` when every pattern falls through (the
source then scans meta tags, which only log, and returns None). -/
def extract_from_page_source (decode : String → Option JValue) :
    List (List String) → Option JValue
  | [] => none
  | ms :: rest =>
      match try_matches decode ms with
      | some r => some r
      | none => extract_from_page_source decode rest

/-- Written from the words of claim C5: scan all matched substrings in
order (patterns in order, matches within a pattern in order), skip any
substring that fails to decode, and return the formatted form of the
first substring that decodes and validates. -/
def scan_all_matches (decode : String → Option JValue) :
    List String → Option JValue
  | [] => none
  | m :: rest =>
      match decode m with
      | none => scan_all_matches decode rest
      | some data =>
          if validate_price_data data then some (format_price_data data)
          else scan_all_matches decode rest

/-- The amended per-pattern scan budget: the matches of one pattern that
the source actually examines are those before the first decode failure
(a decode failure aborts the remaining matches of that pattern). -/
def matches_before_decode_failure (decode : String → Option JValue) :
    List String → List String
  | [] => []
  | m :: rest =>
      match decode m with
      | none => []
      | some _ => m :: matches_before_decode_failure decode rest

/-!
## Record-sequence normalization, written from the claim's words

Claim C3 describes the sequence-of-records normalization as a per-record
scan keyed on the date-key and price-key sets.  `normalize_records_first`
renders the claim as stated (the FIRST matching key of each set wins);
`normalize_records_last` renders the amended form (the LAST matching key
wins, as the source's overwriting loop does).
-/

/-- Value of the last key of the record whose lowercase form is in the
date-key set, `null` when there is none. -/
def last_date_val (kvs : List (String × JValue)) : JValue :=
  ((kvs.filter (fun kv => date_keys.contains (pyLower kv.fst))).map Prod.snd).getLastD .null

/-- Value of the last key of the record whose lowercase form is in the
price-key set, `null` when there is none. -/
def last_price_val (kvs : List (String × JValue)) : JValue :=
  ((kvs.filter (fun kv => price_keys.contains (pyLower kv.fst))).map Prod.snd).getLastD .null

/-- Value of the first key of the record whose lowercase form is in the
date-key set, `null` when there is none. -/
def first_date_val (kvs : List (String × JValue)) : JValue :=
  ((kvs.filter (fun kv => date_keys.contains (pyLower kv.fst))).map Prod.snd).headD .null

/-- Value of the first key of the record whose lowercase form is in the
price-key set, `null` when there is none. -/
def first_price_val (kvs : List (String × JValue)) : JValue :=
  ((kvs.filter (fun kv => price_keys.contains (pyLower kv.fst))).map Prod.snd).headD .null

/-- One record's contribution under last-match scanning: a (date, price)
pair when both scans produced a non-null value, nothing otherwise;
non-mapping records contribute nothing. -/
def record_point_last (item : JValue) : Option (JValue × JValue) :=
  match item with
  | .obj kvs =>
      if !(last_date_val kvs).isNull && !(last_price_val kvs).isNull then
        some (last_date_val kvs, last_price_val kvs)
      else none
  | _ => none

/-- One record's contribution under first-match scanning (the rule as
claim C3 states it). -/
def record_point_first (item : JValue) : Option (JValue × JValue) :=
  match item with
  | .obj kvs =>
      if !(first_date_val kvs).isNull && !(first_price_val kvs).isNull then
        some (first_date_val kvs, first_price_val kvs)
      else none
  | _ => none

/-- The normalized series of a record sequence under last-match
scanning. -/
def normalize_records_last (items : List JValue) : JValue :=
  let pts := items.filterMap record_point_last
  .obj [("labels", .arr (pts.map Prod.fst)), ("data", .arr (pts.map Prod.snd))]

/-- The normalized series of a record sequence under first-match
scanning, as claim C3 states the rule. -/
def normalize_records_first (items : List JValue) : JValue :=
  let pts := items.filterMap record_point_first
  .obj [("labels", .arr (pts.map Prod.fst)), ("data", .arr (pts.map Prod.snd))]

/-- The labels array of a normalized series, for stating properties of
the generated sample series. -/
def series_labels (v : JValue) : List JValue :=
  match v with
  | .obj kvs =>
      match getKey kvs "labels" with
      | .arr ls => ls
      | _ => []
  | _ => []

/-!
## Helper lemmas
-/

/-- The date-key and price-key sets are disjoint, so the `elif` of the
scanning loop never hides a price match behind a date match. -/
theorem date_price_keys_disjoint (s : String) (h : date_keys.contains s = true) :
    price_keys.contains s = false := by
  simp only [date_keys, List.contains_cons, List.contains_nil, Bool.or_eq_true,
    Bool.or_false, beq_iff_eq] at h
  rcases h with h | h | h | h <;> subst h <;> rfl

/-- The scanning loop of `format_price_data`'s list branch, run from any
accumulator, finishes at the values of the last matching keys (the
accumulator standing in when a set has no matching key). -/
theorem scan_item_foldl (kvs : List (String × JValue)) :
    ∀ dv pv : JValue,
      kvs.foldl
        (fun acc kv =>
          if date_keys.contains (pyLower kv.fst) then (kv.snd, acc.snd)
          else if price_keys.contains (pyLower kv.fst) then (acc.fst, kv.snd)
          else acc)
        (dv, pv) =
      (((kvs.filter (fun kv => date_keys.contains (pyLower kv.fst))).map Prod.snd).getLastD dv,
       ((kvs.filter (fun kv => price_keys.contains (pyLower kv.fst))).map Prod.snd).getLastD pv) := by
  induction kvs with
  | nil => intro dv pv; rfl
  | cons kv rest ih =>
      intro dv pv
      by_cases hd : date_keys.contains (pyLower kv.fst) = true
      · have hp : price_keys.contains (pyLower kv.fst) = false :=
          date_price_keys_disjoint _ hd
        simp only [List.foldl_cons, List.filter_cons, hd, hp, if_pos, if_neg,
          Bool.false_eq_true, ite_true, ite_false, List.map_cons, List.getLastD_cons, ih]
      · by_cases hp : price_keys.contains (pyLower kv.fst) = true
        · simp only [List.foldl_cons, List.filter_cons, hd, hp,
            Bool.false_eq_true, ite_true, ite_false, List.map_cons, List.getLastD_cons, ih]
        · simp only [List.foldl_cons, List.filter_cons, hd, hp,
            Bool.false_eq_true, ite_false, ih]

/-- `scan_item` computes the last matching date and price values. -/
theorem scan_item_eq (kvs : List (String × JValue)) :
    scan_item kvs = (last_date_val kvs, last_price_val kvs) := by
  simpa [scan_item, last_date_val, last_price_val] using scan_item_foldl kvs .null .null

/-- The list branch of `format_price_data` keeps exactly the records whose
last-match scan produced two non-null values. -/
theorem format_items_eq (items : List JValue) :
    format_items items = items.filterMap record_point_last := by
  induction items with
  | nil => rfl
  | cons item rest ih =>
      cases item with
      | obj kvs =>
          simp only [format_items, scan_item_eq, record_point_last, List.filterMap_cons]
          by_cases h : (!(last_date_val kvs).isNull && !(last_price_val kvs).isNull) = true
          · simp only [h, ite_true, ih]
          · simp only [h, Bool.false_eq_true, ite_false, ih]
      | null => simpa [format_items, record_point_last] using ih
      | bool b => simpa [format_items, record_point_last] using ih
      | num n => simpa [format_items, record_point_last] using ih
      | str s => simpa [format_items, record_point_last] using ih
      | arr xs => simpa [format_items, record_point_last] using ih

/-- The index loop of the Selenium pairing is the pointwise zip of the
two arrays. -/
theorem chart_pairs_eq_zip (ls : List JValue) :
    ∀ ps : List JValue, chart_pairs ls ps = ls.zip ps := by
  induction ls with
  | nil => intro ps; rfl
  | cons l rest ih =>
      intro ps
      cases ps with
      | nil =>
          simp only [chart_pairs, List.zip_nil_right, List.filterMap_eq_nil_iff,
            List.get?_eq_getElem?]
          intro i _
          cases h : (l :: rest)[i]? <;> simp [h]
      | cons p ps' =>
          simp only [chart_pairs, List.length_cons, List.range_succ_eq_map,
            List.filterMap_cons, List.filterMap_map, Function.comp,
            List.get?_eq_getElem?, List.getElem?_cons_succ, List.getElem?_cons_zero]
          have hf : ((fun i =>
              match (l :: rest)[i]?, (p :: ps')[i]? with
              | some l, some p => some (l, p)
              | _, _ => none) ∘ Nat.succ) =
              (fun i =>
              match rest[i]?, ps'[i]? with
              | some l, some p => some (l, p)
              | _, _ => none) := by
            funext i
            simp [Function.comp, List.getElem?_cons_succ]
          rw [List.zip_cons_cons, hf]
          congr 1
          simpa [chart_pairs, List.get?_eq_getElem?] using ih ps'

/-- Length of the weekly date loop: one point per week boundary in the
inclusive range. -/
theorem weekly_dates_length (endD : Nat) :
    ∀ cur, cur ≤ endD → (weekly_dates endD cur).length = (endD - cur) / 7 + 1 := by
  intro cur
  induction cur using weekly_dates.induct endD with
  | case1 cur hle ih =>
      intro _
      rw [weekly_dates, if_pos hle]
      by_cases h7 : cur + 7 ≤ endD
      · simp only [List.length_cons, ih h7]
        omega
      · rw [weekly_dates, if_neg h7]
        simp only [List.length_cons, List.length_nil]
        omega
  | case2 cur hle => intro h; omega

/-- The i-th entry of the weekly date loop is the start plus `7 * i`
days, present exactly while that day is within the inclusive range. -/
theorem weekly_dates_get? (endD : Nat) :
    ∀ cur, cur ≤ endD → ∀ i : Nat,
      (weekly_dates endD cur).get? i =
        if cur + 7 * i ≤ endD then some (cur + 7 * i) else none := by
  intro cur
  induction cur using weekly_dates.induct endD with
  | case1 cur hle ih =>
      intro _ i
      rw [weekly_dates, if_pos hle]
      cases i with
      | zero => simpa using hle
      | succ j =>
          by_cases h7 : cur + 7 ≤ endD
          · have := ih h7 j
            simp only [List.get?_cons_succ, this]
            by_cases hin : cur + 7 + 7 * j ≤ endD
            · rw [if_pos hin, if_pos (by omega)]
              congr 1
              omega
            · rw [if_neg hin, if_neg (by omega)]
          · rw [weekly_dates, if_neg h7]
            simp only [List.get?_cons_succ, List.get?_nil]
            rw [if_neg (by omega)]
  | case2 cur hle => intro h; omega

/-- The variable-step sample loop emits at least its first point whenever
the start is within range. -/
theorem synth_points_ne_nil (rand : Nat → Nat) (price_of : Nat → Int) :
    synth_points rand price_of sample_start 0 ≠ [] := by
  rw [synth_points, if_pos (by decide : sample_start ≤ sample_end)]
  exact List.cons_ne_nil _ _

/-- `generate_sample_price_data` never produces an empty series. -/
theorem generate_sample_price_data_ne_nil (rand : Nat → Nat) (price_of : Nat → Int) :
    generate_sample_price_data rand price_of ≠ [] := by
  intro h
  exact synth_points_ne_nil rand price_of (List.map_eq_nil_iff.mp h)

/-- One pattern's match loop equals the claim-side scan of the matches
that precede the first decode failure. -/
theorem try_matches_eq_scan (decode : String → Option JValue) :
    ∀ ms : List String,
      try_matches decode ms =
        scan_all_matches decode (matches_before_decode_failure decode ms) := by
  intro ms
  induction ms with
  | nil => rfl
  | cons m rest ih =>
      simp only [try_matches, matches_before_decode_failure]
      cases hd : decode m with
      | none => rfl
      | some data =>
          simp only [scan_all_matches, hd]
          by_cases hv : validate_price_data data = true
          · simp [hv]
          · simp [hv, ih]

/-- The claim-side scan distributes over concatenation: the second block
is scanned only when the first yields nothing. -/
theorem scan_all_matches_append (decode : String → Option JValue) :
    ∀ xs ys : List String,
      scan_all_matches decode (xs ++ ys) =
        match scan_all_matches decode xs with
        | some r => some r
        | none => scan_all_matches decode ys := by
  intro xs ys
  induction xs with
  | nil => rfl
  | cons m rest ih =>
      simp only [List.cons_append, scan_all_matches]
      cases hd : decode m with
      | none => exact ih
      | some data =>
          by_cases hv : validate_price_data data = true
          · simp [hv]
          · simp [hv, ih]

/-!
## Claim theorems
-/

/-- A value with a "labels" key and a non-array "data" value: no §4.1
rule of claim C1 covers it, yet `validate_price_data` accepts it. -/
def c1_counterexample_input : JValue := .obj [("labels", .null), ("data", .num 5)]

/-- Claim C1, counterexample: the source's validator accepts a mapping
whose "data" value is not an array, which matches none of rules 1-4 as
the claim states them (rule 1 requires an array-valued "data" key), so
`validate` does not return true for exactly the rule-matching candidates. -/
theorem c1_counterexample :
    validate_price_data c1_counterexample_input = true ∧
    rules_valid_strict c1_counterexample_input = false :=
  ⟨rfl, rfl⟩

/-- Claim C1, amended: `validate` returns true for exactly the candidates
matching rules 1-4 with rule 1 weakened to key presence alone (a mapping
with both a "labels" key and a "data" key, regardless of the value under
"data"); every other candidate — empty mapping, empty sequence, sequence
of scalars, mapping missing a required key pair, or any scalar — yields
false. -/
theorem c1_validate_eq_rules (v : JValue) :
    validate_price_data v = rules_valid v := by
  cases v with
  | null => rfl
  | bool b => cases b <;> rfl
  | num n => simp [validate_price_data, rules_valid]
  | str s => simp [validate_price_data, rules_valid]
  | arr items =>
      cases items with
      | nil => rfl
      | cons x xs => rfl
  | obj kvs =>
      cases kvs with
      | nil => rfl
      | cons kv rest => rfl

/-- Claim C6: `validate` is a total boolean function — modelled as a Lean
function it returns a boolean on every candidate — and it returns false,
rather than failing, on every structurally malformed shape: the empty
mapping, the empty sequence, null, booleans, numbers, strings, and
sequences led by a scalar. -/
theorem c6_validate_total_never_raises :
    (∀ v : JValue, validate_price_data v = true ∨ validate_price_data v = false) ∧
    validate_price_data (.obj []) = false ∧
    validate_price_data (.arr []) = false ∧
    validate_price_data .null = false ∧
    (∀ b, validate_price_data (.bool b) = false) ∧
    (∀ n : Int, validate_price_data (.num n) = false) ∧
    (∀ s : String, validate_price_data (.str s) = false) ∧
    (∀ (s : String) (rest : List JValue),
      validate_price_data (.arr (.str s :: rest)) = false) ∧
    (∀ (n : Int) (rest : List JValue),
      validate_price_data (.arr (.num n :: rest)) = false) := by
  refine ⟨fun v => Bool.eq_false_or_eq_true _, rfl, rfl, rfl, ?_, ?_, ?_,
    fun s rest => rfl, fun n rest => rfl⟩
  · intro b; cases b <;> rfl
  · intro n; simp [validate_price_data]
  · intro s; simp [validate_price_data]

/-- Claim C9: a mapping accepted only through its "x" and "y" keys (no
labels/data pair, no dates/prices pair) passes validation, yet
`format_price_data` returns the empty series, discarding the x/y
values. -/
theorem c9_xy_validates_but_normalizes_empty (kvs : List (String × JValue))
    (hx : hasKey kvs "x" = true) (hy : hasKey kvs "y" = true)
    (hld : (hasKey kvs "labels" && hasKey kvs "data") = false)
    (hdp : (hasKey kvs "dates" && hasKey kvs "prices") = false) :
    validate_price_data (.obj kvs) = true ∧
    format_price_data (.obj kvs) = .obj [("labels", .arr []), ("data", .arr [])] := by
  have hne : kvs.isEmpty = false := by
    cases kvs with
    | nil => simp [hasKey] at hx
    | cons a l => rfl
  constructor
  · simp [validate_price_data, truthy, hne, hld, hdp, hx, hy]
  · simp [format_price_data, hld, hdp]

/-- Claim C9 witness: the concrete mapping with exactly an "x" and a "y"
key validates and normalizes to the empty series. -/
theorem c9_witness :
    validate_price_data (.obj [("x", .num 1), ("y", .num 2)]) = true ∧
    format_price_data (.obj [("x", .num 1), ("y", .num 2)]) =
      .obj [("labels", .arr []), ("data", .arr [])] :=
  c9_xy_validates_but_normalizes_empty _ rfl rfl rfl rfl

/-- The capitalized-key record sequence of claim C10. -/
def c10_candidate : JValue :=
  .arr [.obj [("Date", .str "2023-01-01"), ("Price", .num 10)]]

/-- Claim C10: key matching is case-sensitive in validation but
case-insensitive in normalization — the capitalized-key sequence is
rejected by `validate_price_data`, yet `format_price_data` emits a point
from it. -/
theorem c10_validation_case_sensitive_normalization_not :
    validate_price_data c10_candidate = false ∧
    format_price_data c10_candidate =
      .obj [("labels", .arr [.str "2023-01-01"]), ("data", .arr [.num 10])] :=
  ⟨rfl, rfl⟩

/-- A record holding two date keys ("date" then "time") and a price key:
the source's overwriting scan keeps the LAST matching date key's value,
while claim C3's rule keeps the first. -/
def c3_counterexample_input : List JValue :=
  [.obj [("date", .str "d1"), ("time", .str "d2"), ("price", .num 5)]]

/-- Claim C3, counterexample: on a record with two date-matching keys the
source emits the last matching value ("d2"), not the first ("d1") as the
claim states, so normalization is not first-match. -/
theorem c3_counterexample :
    format_price_data (.arr c3_counterexample_input) =
      .obj [("labels", .arr [.str "d2"]), ("data", .arr [.num 5])] ∧
    normalize_records_first c3_counterexample_input =
      .obj [("labels", .arr [.str "d1"]), ("data", .arr [.num 5])] ∧
    format_price_data (.arr c3_counterexample_input) ≠
      normalize_records_first c3_counterexample_input := by
  have h1 : format_price_data (.arr c3_counterexample_input) =
      .obj [("labels", .arr [.str "d2"]), ("data", .arr [.num 5])] := rfl
  have h2 : normalize_records_first c3_counterexample_input =
      .obj [("labels", .arr [.str "d1"]), ("data", .arr [.num 5])] := rfl
  refine ⟨h1, h2, ?_⟩
  rw [h1, h2]
  simp

/-- Claim C3, amended: normalizing a record sequence scans each record's
key-value pairs and takes the LAST key matching the date-key set
(case-insensitively) as the point's date and the LAST key matching the
price-key set as its price, silently dropping every record whose scan
leaves either value missing; the input sequence of the claim's example
still normalizes to the single point (date "t1", price 10). -/
theorem c3_records_last_match :
    (∀ items : List JValue,
      format_price_data (.arr items) = normalize_records_last items) ∧
    format_price_data (.arr [.obj [("time", .str "t1"), ("value", .num 10)],
        .obj [("x", .str "t2")]]) =
      .obj [("labels", .arr [.str "t1"]), ("data", .arr [.num 10])] := by
  refine ⟨fun items => ?_, rfl⟩
  simp only [format_price_data, normalize_records_last, format_items_eq]

/-- The five-label array of claim C4's example. -/
def c4_labels : List JValue :=
  [.str "L1", .str "L2", .str "L3", .str "L4", .str "L5"]

/-- The three-value data array of claim C4's example. -/
def c4_data : List JValue := [.num 1, .num 2, .num 3]

/-- Claim C4: pairing a labels array with a shorter (or longer) data
array emits exactly the pairs up to the shorter length — the Selenium
pairing loop is the zip of the two arrays — and on the 5-label/3-value
example exactly 3 points are produced from the first 3 elements of each
array; the CSV row zip over the passed-through mismatched mapping agrees. -/
theorem c4_mismatched_lengths_truncate :
    (∀ ls ps : List JValue,
      chart_pairs ls ps = ls.zip ps ∧
      (chart_pairs ls ps).length = min ls.length ps.length) ∧
    chart_pairs c4_labels c4_data =
      [(.str "L1", .num 1), (.str "L2", .num 2), (.str "L3", .num 3)] ∧
    save_to_csv_rows (format_price_data
        (.obj [("labels", .arr c4_labels), ("data", .arr c4_data)])) =
      [(.str "L1", .num 1), (.str "L2", .num 2), (.str "L3", .num 3)] := by
  refine ⟨fun ls ps => ⟨chart_pairs_eq_zip ls ps, ?_⟩, rfl, rfl⟩
  rw [chart_pairs_eq_zip]
  exact List.length_zip ls ps

/-- The validating candidate decoded from the substring "good" in claim
C5's counterexample. -/
def c5_good_candidate : JValue :=
  .obj [("labels", .arr [.str "2023-01-01"]), ("data", .arr [.num 999])]

/-- The decode function of claim C5's counterexample: "good" decodes to a
validating candidate, everything else (such as "bad") raises. -/
def c5_decode : String → Option JValue :=
  fun s => if s == "good" then some c5_good_candidate else none

/-- Claim C5, counterexample: with one pattern whose matches are
["bad", "good"], the decode failure on "bad" aborts that pattern's
remaining matches, so the extractor returns nothing even though the very
next substring decodes and validates — the scan does not continue past a
decode failure within a pattern as the claim states. -/
theorem c5_counterexample :
    extract_from_page_source c5_decode [["bad", "good"]] = none ∧
    scan_all_matches c5_decode ["bad", "good"] =
      some (format_price_data c5_good_candidate) ∧
    extract_from_page_source c5_decode [["bad", "good"]] ≠
      scan_all_matches c5_decode ["bad", "good"] := by
  have h1 : extract_from_page_source c5_decode [["bad", "good"]] = none := rfl
  have h2 : scan_all_matches c5_decode ["bad", "good"] =
      some (format_price_data c5_good_candidate) := rfl
  refine ⟨h1, h2, ?_⟩
  rw [h1, h2]
  simp

/-- Claim C5, amended: the page-source extractor returns the first
substring — scanning patterns in order and, within each pattern, its
matches up to the first decode failure — that decodes successfully and
passes the validator, formatted; a decode failure is swallowed, aborts
the current pattern's remaining matches, and the scan continues with the
next pattern; no decode error propagates (the model is a total function
into an option). -/
theorem c5_first_decoded_validated_with_pattern_abort
    (decode : String → Option JValue) (pms : List (List String)) :
    extract_from_page_source decode pms =
      scan_all_matches decode
        ((pms.map (matches_before_decode_failure decode)).flatten) := by
  induction pms with
  | nil => rfl
  | cons ms rest ih =>
      simp only [extract_from_page_source, List.map_cons, List.flatten_cons,
        scan_all_matches_append, try_matches_eq_scan, ih]

/-- Claim C8: the brand is the title's first whitespace token with
non-word punctuation stripped whenever that cleaning leaves something,
and title/brand fall back to the placeholder strings when no title was
extracted; in particular "Samsung Galaxy S23" yields brand "Samsung",
"«Apple» iPhone" yields brand "Apple", and a missing title yields
("Unknown Product", "Unknown Brand"). -/
theorem c8_brand_from_first_token :
    (∀ (t w : String) (rest : List String),
      pySplit t = w :: rest → clean_brand w ≠ "" →
      extract_product_info (some t) = (t, clean_brand w)) ∧
    extract_product_info (some "Samsung Galaxy S23") =
      ("Samsung Galaxy S23", "Samsung") ∧
    extract_product_info (some "«Apple» iPhone") = ("«Apple» iPhone", "Apple") ∧
    extract_product_info none = ("Unknown Product", "Unknown Brand") := by
  refine ⟨?_, rfl, rfl, rfl⟩
  intro t w rest hsplit hb
  have ht : t.isEmpty = false := by
    cases he : t.isEmpty
    · rfl
    · exfalso
      have h0 : t = "" := (String.isEmpty_iff t).mp he
      subst h0
      simp [pySplit, pySplitAux] at hsplit
  have hbe : (clean_brand w).isEmpty = false := by
    cases hbe2 : (clean_brand w).isEmpty
    · rfl
    · exact absurd ((String.isEmpty_iff _).mp hbe2) hb
  simp [extract_product_info, ht, hsplit, hbe]

set_option maxRecDepth 20000 in
/-- Claim C7: with the fixed weekly step, the sample generator's label
count is the number of weekly boundaries in the inclusive
2022-11-01..2025-08-02 range — `(end - start) / 7 + 1`, equal to the
number of in-range day offsets divisible by 7, concretely 144 — the
labels are identical for any two price functions, and the i-th label is
the start date plus `7 * i` days. -/
theorem c7_weekly_sample_deterministic :
    (∀ f g : Nat → Int,
      series_labels (generate_sample_data f) = series_labels (generate_sample_data g)) ∧
    (∀ f : Nat → Int,
      (series_labels (generate_sample_data f)).length =
        (sample_end - sample_start) / 7 + 1 ∧
      (series_labels (generate_sample_data f)).length =
        ((List.range (sample_end - sample_start + 1)).filter (fun d => d % 7 == 0)).length ∧
      (series_labels (generate_sample_data f)).length = 144 ∧
      ∀ i : Nat,
        (series_labels (generate_sample_data f)).get? i =
          if sample_start + 7 * i ≤ sample_end
          then some (.str (fmt_date (sample_start + 7 * i))) else none) := by
  have hlab : ∀ f : Nat → Int, series_labels (generate_sample_data f) =
      (weekly_dates sample_end sample_start).map (fun z => .str (fmt_date z)) :=
    fun f => rfl
  constructor
  · intro f g
    rw [hlab f, hlab g]
  · intro f
    rw [hlab f]
    have hse : sample_start ≤ sample_end := by decide
    have hlen : ((weekly_dates sample_end sample_start).map
        (fun z => JValue.str (fmt_date z))).length =
        (sample_end - sample_start) / 7 + 1 := by
      rw [List.length_map]
      exact weekly_dates_length sample_end sample_start hse
    refine ⟨hlen, ?_, ?_, ?_⟩
    · rw [hlen]
      decide
    · rw [hlen]
      rfl
    · intro i
      rw [List.get?_map, weekly_dates_get? sample_end sample_start hse i]
      by_cases hin : sample_start + 7 * i ≤ sample_end
      · rw [if_pos hin, if_pos hin]
        rfl
      · rw [if_neg hin, if_neg hin]
        rfl

/-- Claim C8 witness: the general first-token rule applied to the
concrete title "Samsung Galaxy S23". -/
theorem c8_witness :
    pySplit "Samsung Galaxy S23" = "Samsung" :: ["Galaxy", "S23"] ∧
    extract_product_info (some "Samsung Galaxy S23") =
      ("Samsung Galaxy S23", clean_brand "Samsung") :=
  ⟨rfl, c8_brand_from_first_token.1 "Samsung Galaxy S23" "Samsung" ["Galaxy", "S23"]
    rfl (by decide)⟩

/-- Claim C2: when the requests attempt yields no price points and the
Selenium attempt yields no usable chart arrays, the per-URL pipeline
record carries exactly the synthetic generator's series, which is never
empty; and regardless of what the strategies yield, the returned record
never has an empty price series. -/
theorem c2_synthetic_fallback_nonempty :
    (∀ (m1 : Option ((String × String) × List (JValue × JValue)))
       (m2 : Option (Option String × Option (List JValue × List JValue)))
       (rand : Nat → Nat) (price_of : Nat → Int),
      (∀ info prices, m1 = some (info, prices) → prices = []) →
      (∀ topt chart, m2 = some (topt, some chart) →
        chart.fst = [] ∨ chart.snd = []) →
      (extract_chart_data_advanced m1 m2 rand price_of).price_data =
        generate_sample_price_data rand price_of ∧
      (extract_chart_data_advanced m1 m2 rand price_of).price_data ≠ []) ∧
    (∀ (m1 : Option ((String × String) × List (JValue × JValue)))
       (m2 : Option (Option String × Option (List JValue × List JValue)))
       (rand : Nat → Nat) (price_of : Nat → Int),
      (extract_chart_data_advanced m1 m2 rand price_of).price_data ≠ []) := by
  constructor
  · intro m1 m2 rand price_of h1 h2
    have hsyn : (extract_chart_data_advanced m1 m2 rand price_of).price_data =
        generate_sample_price_data rand price_of := by
      cases m1 with
      | none =>
          cases m2 with
          | none => simp [extract_chart_data_advanced]
          | some tc =>
              obtain ⟨topt, chartOpt⟩ := tc
              cases chartOpt with
              | none => cases topt <;> simp [extract_chart_data_advanced]
              | some chart =>
                  obtain ⟨cls, cds⟩ := chart
                  rcases h2 topt (cls, cds) rfl with h | h <;> subst h <;>
                    cases topt <;> simp [extract_chart_data_advanced]
      | some ip =>
          obtain ⟨info, prices⟩ := ip
          have hp : prices = [] := h1 info prices rfl
          subst hp
          cases m2 with
          | none => simp [extract_chart_data_advanced]
          | some tc =>
              obtain ⟨topt, chartOpt⟩ := tc
              cases chartOpt with
              | none => cases topt <;> simp [extract_chart_data_advanced]
              | some chart =>
                  obtain ⟨cls, cds⟩ := chart
                  rcases h2 topt (cls, cds) rfl with h | h <;> subst h <;>
                    cases topt <;> simp [extract_chart_data_advanced]
    refine ⟨hsyn, ?_⟩
    rw [hsyn]
    exact generate_sample_price_data_ne_nil rand price_of
  · intro m1 m2 rand price_of
    have hchart : ∀ c cls d cds, chart_pairs (c :: cls) (d :: cds) ≠ [] := by
      intro c cls d cds
      rw [chart_pairs_eq_zip, List.zip_cons_cons]
      exact List.cons_ne_nil _ _
    cases m1 with
    | none =>
        cases m2 with
        | none =>
            simp [extract_chart_data_advanced]
            exact generate_sample_price_data_ne_nil rand price_of
        | some tc =>
            obtain ⟨topt, chartOpt⟩ := tc
            cases chartOpt with
            | none =>
                cases topt <;> simp [extract_chart_data_advanced] <;>
                  exact generate_sample_price_data_ne_nil rand price_of
            | some chart =>
                obtain ⟨cls, cds⟩ := chart
                cases cls with
                | nil =>
                    cases topt <;> simp [extract_chart_data_advanced] <;>
                      exact generate_sample_price_data_ne_nil rand price_of
                | cons c cls' =>
                    cases cds with
                    | nil =>
                        cases topt <;> simp [extract_chart_data_advanced] <;>
                          exact generate_sample_price_data_ne_nil rand price_of
                    | cons d cds' =>
                        cases topt <;>
                          simp [extract_chart_data_advanced, chart_pairs_eq_zip,
                            List.zip_cons_cons]
    | some ip =>
        obtain ⟨info, prices⟩ := ip
        cases prices with
        | cons p ps => simp [extract_chart_data_advanced]
        | nil =>
            cases m2 with
            | none =>
                simp [extract_chart_data_advanced]
                exact generate_sample_price_data_ne_nil rand price_of
            | some tc =>
                obtain ⟨topt, chartOpt⟩ := tc
                cases chartOpt with
                | none =>
                    cases topt <;> simp [extract_chart_data_advanced] <;>
                      exact generate_sample_price_data_ne_nil rand price_of
                | some chart =>
                    obtain ⟨cls, cds⟩ := chart
                    cases cls with
                    | nil =>
                        cases topt <;> simp [extract_chart_data_advanced] <;>
                          exact generate_sample_price_data_ne_nil rand price_of
                    | cons c cls' =>
                        cases cds with
                        | nil =>
                            cases topt <;> simp [extract_chart_data_advanced] <;>
                              exact generate_sample_price_data_ne_nil rand price_of
                        | cons d cds' =>
                            cases topt <;>
                              simp [extract_chart_data_advanced, chart_pairs_eq_zip,
                                List.zip_cons_cons]

/-- Claim C2 witness: with both probes absent, the record's series is the
synthetic one and is non-empty. -/
theorem c2_witness :
    (extract_chart_data_advanced none none (fun _ => 0) (fun _ => 1)).price_data =
      generate_sample_price_data (fun _ => 0) (fun _ => 1) ∧
    (extract_chart_data_advanced none none (fun _ => 0) (fun _ => 1)).price_data ≠ [] :=
  c2_synthetic_fallback_nonempty.1 none none (fun _ => 0) (fun _ => 1)
    (fun _ _ h => by cases h) (fun _ _ h => by cases h)
